import Mathlib

/-!
Shallow embedding of the telemetry-collection hooks of
`react-perf-dashboard` (src/src/hooks/useNetworkMonitor.ts, useFps.ts,
useMemory.ts, and the PerformanceObserver-based web-vitals hook in
src/unnamed/part_002), together with proofs of the specification's
claims about them.

Time values, durations and metric values are rationals (ℚ); HTTP status
codes are naturals. Function references (the process-wide `window.fetch`
value) are modelled by an inductive type whose structural equality
models reference identity: each distinct underlying function value is a
distinct `base` tag, and the wrapper installed by the interceptor is a
distinct constructor applied to the captured original.
-/

namespace PerfDash

/-! ## CallInterceptor (useNetworkMonitor)

`useNetworkMonitor` captures `window.fetch` as `originalFetch`, installs
a wrapper, and on cleanup restores `window.fetch := originalFetch`.
The wrapper measures each call, prepends a `NetworkRequest` to the
history (keeping the 5 most recent), and passes the outcome through. -/

/-- A value of the process-wide network-call capability slot
(`window.fetch`).  `base n` is any non-wrapper function reference;
`wrapper f` is the interceptor's replacement closing over the captured
original `f`.  Structural equality models reference identity. -/
inductive FetchFn : Type
  | base : Nat → FetchFn
  | wrapper : FetchFn → FetchFn
deriving DecidableEq, Repr

/-- `NetworkRequest` from useNetworkMonitor.ts. -/
structure NetworkRequest where
  url : String
  status : Nat
  duration : ℚ
  timestamp : ℤ
deriving DecidableEq, Repr

/-- The monitor's environment: the global fetch slot plus the React
state holding the request history (newest first). -/
structure MonitorEnv where
  globalFetch : FetchFn
  requests : List NetworkRequest
deriving DecidableEq, Repr

/-- The effect-body of `useNetworkMonitor`'s `useEffect`: capture the
current global fetch as `originalFetch` and install the wrapper.
Returns the new environment together with the captured original (which
the cleanup closure holds). -/
def nmStart (env : MonitorEnv) : MonitorEnv × FetchFn :=
  ({ env with globalFetch := FetchFn.wrapper env.globalFetch }, env.globalFetch)

/-- The cleanup returned by the effect: `window.fetch = originalFetch`. -/
def nmStop (originalFetch : FetchFn) (env : MonitorEnv) : MonitorEnv :=
  { env with globalFetch := originalFetch }

/-- `parseFloat(x.toFixed(2))`: round to two decimal places (ties away
from zero upward, as ECMAScript `toFixed` picks the larger candidate). -/
def roundTo2 (q : ℚ) : ℚ := (round (q * 100) : ℤ) / 100

/-- Outcome of the delegated (original) fetch call: a response carrying
an HTTP status and an opaque response identity, or a failure carrying an
opaque error identity. -/
inductive FetchOutcome : Type
  | success : Nat → Nat → FetchOutcome
  | failure : Nat → FetchOutcome
deriving DecidableEq, Repr

/-- One invocation of the installed wrapper, given the timestamps read
from `performance.now()` at entry (`startTime`) and at settlement
(`settleTime`), the wall-clock `Date.now()` value `ts`, and the outcome
of delegating to the captured original.  Mirrors useNetworkMonitor.ts
lines 30–62: on success the record's duration is
`parseFloat(duration.toFixed(2))`; on failure the record has status 0
and the raw elapsed duration, and the error is re-thrown.  Returns the
updated history and the outcome surfaced to the caller. -/
def interceptCall (url : String) (startTime settleTime : ℚ) (ts : ℤ)
    (outcome : FetchOutcome) (prev : List NetworkRequest) :
    List NetworkRequest × FetchOutcome :=
  match outcome with
  | FetchOutcome.success status resp =>
      let duration := settleTime - startTime
      let newReq : NetworkRequest :=
        { url := url, status := status, duration := roundTo2 duration,
          timestamp := ts }
      ((newReq :: prev).take 5, FetchOutcome.success status resp)
  | FetchOutcome.failure err =>
      let newReq : NetworkRequest :=
        { url := url, status := 0, duration := settleTime - startTime,
          timestamp := ts }
      ((newReq :: prev).take 5, FetchOutcome.failure err)

/-- The history update alone (`setRequests (prev => [newReq, ...prev].slice(0, 5))`). -/
def pushRequest (r : NetworkRequest) (prev : List NetworkRequest) :
    List NetworkRequest :=
  (r :: prev).take 5

/-- The history after a sequence of completed calls, each prepended as
it completes (oldest completion first in `rs`). -/
def historyAfter (rs : List NetworkRequest) : List NetworkRequest :=
  rs.foldl (fun acc r => pushRequest r acc) []

theorem take_append_take (n : ℕ) (xs ys : List NetworkRequest) :
    (xs ++ ys.take n).take n = (xs ++ ys).take n := by
  rw [List.take_append_eq_append_take, List.take_append_eq_append_take,
      List.take_take, Nat.min_eq_left (Nat.sub_le n xs.length)]

/-- The folded history equals the reversed input truncated to the 5
newest records: newest-first, oldest evicted. -/
theorem historyAfter_eq (rs : List NetworkRequest) :
    historyAfter rs = rs.reverse.take 5 := by
  suffices h : ∀ acc : List NetworkRequest,
      rs.foldl (fun a r => pushRequest r a) (acc.take 5) =
        (rs.reverse ++ acc).take 5 by
    have := h []
    simpa [historyAfter] using this
  induction rs with
  | nil => intro acc; simp
  | cons r rs ih =>
      intro acc
      have step : pushRequest r (acc.take 5) = (r :: acc).take 5 := by
        show (r :: acc.take 5).take 5 = (r :: acc).take 5
        rw [show r :: acc.take 5 = [r] ++ acc.take 5 from rfl,
            take_append_take]
        rfl
      rw [List.foldl_cons, step, ih (r :: acc), List.reverse_cons,
          List.append_assoc]
      rfl

/-- A wrapper is a different function reference from the function it
wraps. -/
theorem wrapper_ne (f : FetchFn) : FetchFn.wrapper f ≠ f := by
  induction f with
  | base n => intro h; exact FetchFn.noConfusion h
  | wrapper g ih => intro h; exact ih (FetchFn.wrapper.inj h)

/-- C1: after `start()` then `stop()` of a single interceptor instance,
the process-wide `window.fetch` slot holds exactly the function
reference it held before `start()`, and the wrapper installed at
`start()` (a distinct reference) is gone. -/
theorem nm_start_stop_roundtrip (env : MonitorEnv) :
    (nmStop (nmStart env).2 (nmStart env).1).globalFetch = env.globalFetch ∧
    (nmStart env).1.globalFetch ≠ env.globalFetch ∧
    (nmStop (nmStart env).2 (nmStart env).1).globalFetch ≠
      (nmStart env).1.globalFetch := by
  refine ⟨rfl, wrapper_ne env.globalFetch, ?_⟩
  intro h
  exact wrapper_ne env.globalFetch h.symm

/-- C2: when the delegated call fails, the wrapper prepends a record
with status 0 and nonnegative duration (the clock is non-decreasing)
and surfaces the exact original failure to the caller — the same
outcome the caller would see with no interceptor installed. -/
theorem interceptCall_failure_transparent (url : String)
    (startTime settleTime : ℚ) (ts : ℤ) (err : Nat)
    (prev : List NetworkRequest) (hclock : startTime ≤ settleTime) :
    (((interceptCall url startTime settleTime ts
        (FetchOutcome.failure err) prev).1).head?.map
          (fun r => (r.status, 0 ≤ r.duration)) = some (0, True)) ∧
    (interceptCall url startTime settleTime ts
        (FetchOutcome.failure err) prev).2 = FetchOutcome.failure err ∧
    (interceptCall url startTime settleTime ts
        (FetchOutcome.failure err) prev).1 =
      pushRequest
        { url := url, status := 0, duration := settleTime - startTime,
          timestamp := ts } prev := by
  refine ⟨?_, rfl, rfl⟩
  have hd : (0 : ℚ) ≤ settleTime - startTime := by linarith
  simp [interceptCall, List.head?, eq_true hd]

/-- C3: the externally visible history is always the reversed
completion sequence truncated to its 5 newest records (newest first,
length ≤ 5, each completed call prepended, oldest evicted on
overflow); after 8 sequential completed calls it is exactly the last
5 in newest-first order, the oldest 3 evicted. -/
theorem history_bounded_newest_first :
    (∀ rs : List NetworkRequest,
        historyAfter rs = rs.reverse.take 5 ∧ (historyAfter rs).length ≤ 5) ∧
    (∀ r : NetworkRequest, ∀ prev, pushRequest r prev = (r :: prev).take 5) ∧
    (∀ r1 r2 r3 r4 r5 r6 r7 r8 : NetworkRequest,
        historyAfter [r1, r2, r3, r4, r5, r6, r7, r8] =
          [r8, r7, r6, r5, r4] ∧
        (historyAfter [r1, r2, r3, r4, r5, r6, r7, r8]).length = 5) := by
  refine ⟨fun rs => ⟨historyAfter_eq rs, ?_⟩, fun r prev => rfl,
    fun r1 r2 r3 r4 r5 r6 r7 r8 => ⟨rfl, rfl⟩⟩
  rw [historyAfter_eq]
  exact le_trans (List.length_take_le 5 rs.reverse) (le_refl 5)

/-- C10: a successful call's recorded duration is the elapsed time
rounded to two decimal places; a failed call's recorded duration is the
raw elapsed time, with no rounding — and the two can differ (e.g. at an
elapsed time of 1.257 ms). -/
theorem interceptCall_duration_precision :
    (∀ (url : String) (startTime settleTime : ℚ) (ts : ℤ)
        (status resp : Nat) (prev : List NetworkRequest),
        ((interceptCall url startTime settleTime ts
            (FetchOutcome.success status resp) prev).1).head? =
          some { url := url, status := status,
                 duration := roundTo2 (settleTime - startTime),
                 timestamp := ts }) ∧
    (∀ (url : String) (startTime settleTime : ℚ) (ts : ℤ) (err : Nat)
        (prev : List NetworkRequest),
        ((interceptCall url startTime settleTime ts
            (FetchOutcome.failure err) prev).1).head? =
          some { url := url, status := 0,
                 duration := settleTime - startTime, timestamp := ts }) ∧
    roundTo2 (1257 / 1000) ≠ (1257 / 1000 : ℚ) := by
  refine ⟨fun url s t ts st resp prev => rfl,
    fun url s t ts err prev => rfl, ?_⟩
  rw [roundTo2, round_eq]
  norm_num [Int.floor_eq_iff]

/-- Witness: a concrete failing call (elapsed 10 ms, error id 7) at an
empty history. -/
theorem interceptCall_failure_transparent_witness :
    ((0 : ℚ) ≤ 10) ∧
    ((((interceptCall "u" 0 10 5 (FetchOutcome.failure 7) []).1).head?.map
        (fun r => (r.status, 0 ≤ r.duration)) = some (0, True)) ∧
     (interceptCall "u" 0 10 5 (FetchOutcome.failure 7) []).2 =
        FetchOutcome.failure 7 ∧
     (interceptCall "u" 0 10 5 (FetchOutcome.failure 7) []).1 =
       pushRequest
         { url := "u", status := 0, duration := 10 - 0, timestamp := 5 }
         []) :=
  ⟨by norm_num,
   interceptCall_failure_transparent "u" 0 10 5 7 [] (by norm_num)⟩

/-! ## FrameRateSampler (useFps)

The `loop` closure of useFps.ts: on each invocation read
`now = performance.now()`, increment `frameCount`; if `now - lastTime`
is at least 1000 ms, emit `round(frameCount * 1000 / (now - lastTime))`
via `setFps` and reset `frameCount := 0`, `lastTime := now`. -/

/-- Mutable state of the `loop` closure. -/
structure FpsState where
  frameCount : ℕ
  lastTime : ℚ
deriving DecidableEq, Repr

/-- One invocation of `loop` at clock reading `now`; returns the new
state and the emitted fps value, if any. -/
def fpsLoop (s : FpsState) (now : ℚ) : FpsState × Option ℤ :=
  let fc := s.frameCount + 1
  if 1000 ≤ now - s.lastTime then
    (⟨0, now⟩, some (round ((fc : ℚ) * 1000 / (now - s.lastTime))))
  else
    (⟨fc, s.lastTime⟩, none)

/-- A whole run of the loop over a sequence of invocation timestamps,
collecting all emitted updates in order. -/
def fpsRun (s : FpsState) : List ℚ → FpsState × List ℤ
  | [] => (s, [])
  | now :: rest =>
      let step := fpsLoop s now
      let tail := fpsRun step.1 rest
      (tail.1, step.2.toList ++ tail.2)

/-- If no invocation timestamp ever reaches 1000 ms past the window
start, the run emits nothing and the window start never moves. -/
theorem fpsRun_no_window (frames : List ℚ) :
    ∀ s : FpsState, (∀ t ∈ frames, t - s.lastTime < 1000) →
      (fpsRun s frames).2 = [] ∧ (fpsRun s frames).1.lastTime = s.lastTime := by
  induction frames with
  | nil => intro s _; exact ⟨rfl, rfl⟩
  | cons t rest ih =>
      intro s h
      have ht : t - s.lastTime < 1000 := h t (List.mem_cons_self t rest)
      have hstep : fpsLoop s t = (⟨s.frameCount + 1, s.lastTime⟩, none) := by
        rw [fpsLoop, if_neg (not_le.mpr ht)]
      have hrest : ∀ u ∈ rest, u - (⟨s.frameCount + 1, s.lastTime⟩ :
          FpsState).lastTime < 1000 :=
        fun u hu => h u (List.mem_cons_of_mem t hu)
      have := ih ⟨s.frameCount + 1, s.lastTime⟩ hrest
      rw [fpsRun, hstep]
      exact ⟨by simpa using this.1, this.2⟩

/-- C4: the loop emits exactly on invocations where the elapsed time
since the window start is ≥ 1000 ms, with value
`round(frameCount·1000 / elapsed)` for the frames counted in that
window, resetting the counter and window start; an invocation inside an
incomplete window emits nothing and only counts the frame; a run whose
invocations never reach 1000 ms past the window start emits zero
updates before `stop()`. -/
theorem fps_window_emission :
    (∀ (s : FpsState) (now : ℚ), 1000 ≤ now - s.lastTime →
        fpsLoop s now = (⟨0, now⟩,
          some (round ((s.frameCount + 1 : ℚ) * 1000 / (now - s.lastTime))))) ∧
    (∀ (s : FpsState) (now : ℚ), now - s.lastTime < 1000 →
        fpsLoop s now = (⟨s.frameCount + 1, s.lastTime⟩, none)) ∧
    (∀ (t0 : ℚ) (c : ℕ) (frames : List ℚ),
        (∀ t ∈ frames, t - t0 < 1000) →
        (fpsRun ⟨c, t0⟩ frames).2 = []) := by
  refine ⟨fun s now h => ?_, fun s now h => ?_, fun t0 c frames h => ?_⟩
  · rw [fpsLoop, if_pos h]
    norm_num
  · rw [fpsLoop, if_neg (not_le.mpr h)]
  · exact (fpsRun_no_window frames ⟨c, t0⟩ h).1

/-- Witness: one completed window (48 frames over 1600 ms → 30 fps),
one incomplete-window invocation, and a run that never completes a
window. -/
theorem fps_window_emission_witness :
    ((1000 : ℚ) ≤ 1600 - (0 : ℚ)) ∧
    fpsLoop ⟨47, 0⟩ 1600 =
      (⟨0, 1600⟩, some (round ((47 + 1 : ℚ) * 1000 / (1600 - 0)))) ∧
    ((500 : ℚ) - 0 < 1000) ∧
    fpsLoop ⟨2, 0⟩ 500 = (⟨2 + 1, 0⟩, none) ∧
    (fpsRun ⟨0, 0⟩ [100, 400, 900]).2 = [] ∧
    round ((47 + 1 : ℚ) * 1000 / (1600 - 0)) = 30 := by
  have h := fps_window_emission
  refine ⟨by norm_num, ?_, by norm_num, h.2.1 ⟨2, 0⟩ 500 (by norm_num), ?_, ?_⟩
  · have := h.1 ⟨47, 0⟩ 1600 (by norm_num)
    simpa using this
  · refine h.2.2 0 0 [100, 400, 900] ?_
    intro t ht
    fin_cases ht <;> norm_num
  · have : ((47 + 1 : ℚ) * 1000 / (1600 - 0)) = ((30 : ℤ) : ℚ) := by norm_num
    rw [this, round_intCast]

/-! ## HeapSampler (useMemory)

The `setInterval` callback of useMemory.ts: on each tick, if
`performance.memory` is present, call
`setMemory({ used: usedJSHeapSize / 1024 / 1024,
             limit: jsHeapSizeLimit / 1024 / 1024 })`;
there is no `else` branch — when the capability is absent the callback
does nothing (it does not emit `null`). -/

/-- The platform's `performance.memory` report, in bytes. -/
structure HeapInfo where
  usedJSHeapSize : ℚ
  jsHeapSizeLimit : ℚ
deriving DecidableEq, Repr

/-- The value stored by `setMemory`, in megabytes. -/
structure HeapSample where
  used : ℚ
  limit : ℚ
deriving DecidableEq, Repr

/-- The conversion applied on a present capability. -/
def heapSampleOf (m : HeapInfo) : HeapSample :=
  { used := m.usedJSHeapSize / 1024 / 1024,
    limit := m.jsHeapSizeLimit / 1024 / 1024 }

/-- The `setMemory` invocations performed by one interval tick, given
the capability visible on that invocation (`none` = absent). -/
def memTickEmits (cap : Option HeapInfo) : List (Option HeapSample) :=
  match cap with
  | some m => [some (heapSampleOf m)]
  | none => []

/-- The hook's exposed state after one tick: updated on a present
capability, retained unchanged (NOT reset to `none`) on an absent
one. -/
def memTickState (cap : Option HeapInfo) (st : Option HeapSample) :
    Option HeapSample :=
  match cap with
  | some m => some (heapSampleOf m)
  | none => st

/-- Counterexample to C5: on a tick where the capability is absent, the
sampler performs zero emissions — it does not emit `null` (one value),
and a previously held sample is retained rather than replaced by
`null`. -/
theorem memTick_absent_emits_nothing :
    ¬ ((memTickEmits none).length = 1) ∧
    memTickEmits none ≠ [none] ∧
    memTickState none (some { used := 3, limit := 1024 }) =
      some { used := 3, limit := 1024 } := by
  refine ⟨?_, ?_, rfl⟩
  · simp [memTickEmits]
  · simp [memTickEmits]

/-- C5 (amended): on every tick where the heap capability is present
the sampler emits exactly one sample with the byte counts divided by
1024·1024; on a tick where it is absent it emits nothing and the
previously exposed value (initially `null`) is retained; no tick ever
throws. -/
theorem memTick_behaviour :
    (∀ m : HeapInfo, memTickEmits (some m) =
        [some { used := m.usedJSHeapSize / 1024 / 1024,
                limit := m.jsHeapSizeLimit / 1024 / 1024 }] ∧
      (memTickEmits (some m)).length = 1) ∧
    memTickEmits none = [] ∧
    (∀ st : Option HeapSample, memTickState none st = st) ∧
    (∀ (cap : Option HeapInfo) (st : Option HeapSample),
        memTickState cap st =
          (memTickEmits cap).headD st) := by
  refine ⟨fun m => ⟨rfl, rfl⟩, rfl, fun st => rfl, fun cap st => ?_⟩
  cases cap <;> rfl

/-! ## VitalsObserver (useWebVitals, PerformanceObserver variant)

The hook attaches four `PerformanceObserver`s (LCP, CLS, FID, INP),
each `observe` call wrapped in its own try/catch; an unsupported entry
type throws inside `observe`, is caught, and only disables that one
stream.  The CLS observer keeps a closure variable `clsValue` and adds
`entry.value` for each entry with `hadRecentInput` false; the INP
observer keeps `worstInp` and replaces it whenever an entry has a
truthy `duration` strictly greater than it. -/

/-- A `layout-shift` performance entry. -/
structure LayoutShiftEntry where
  value : ℚ
  hadRecentInput : Bool
deriving DecidableEq, Repr

/-- An `event` (interaction) performance entry. -/
structure EventEntry where
  duration : ℚ
deriving DecidableEq, Repr

/-- A `largest-contentful-paint` performance entry. -/
structure LCPEntry where
  renderTime : ℚ
  loadTime : ℚ
deriving DecidableEq, Repr

/-- A `first-input` performance entry. -/
structure FirstInputEntry where
  startTime : ℚ
  processingStart : ℚ
deriving DecidableEq, Repr

/-- The hook's state: each field `null` until its first observation. -/
structure WebVitals where
  lcp : Option ℚ
  fid : Option ℚ
  cls : Option ℚ
  inp : Option ℚ
deriving DecidableEq, Repr

/-- One entry processed by the CLS observer callback: the closure pair
(`clsValue`, current `vitals.cls`). -/
def clsStep (acc : ℚ × Option ℚ) (e : LayoutShiftEntry) : ℚ × Option ℚ :=
  if e.hadRecentInput then acc
  else (acc.1 + e.value, some (acc.1 + e.value))

/-- The CLS observer over the whole session's entry stream, from
`clsValue = 0` and `cls: null`. -/
def clsRun (entries : List LayoutShiftEntry) : ℚ × Option ℚ :=
  entries.foldl clsStep (0, none)

/-- One entry processed by the INP observer callback
(`if (entry.duration && entry.duration > worstInp)`). -/
def inpStep (acc : ℚ × Option ℚ) (e : EventEntry) : ℚ × Option ℚ :=
  if e.duration ≠ 0 ∧ acc.1 < e.duration then (e.duration, some e.duration)
  else acc

/-- The INP observer over the whole session's entry stream, from
`worstInp = 0` and `inp: null`. -/
def inpRun (entries : List EventEntry) : ℚ × Option ℚ :=
  entries.foldl inpStep (0, none)

/-- `lastEntry.renderTime || lastEntry.loadTime || 0`. -/
def lcpValueOf (e : LCPEntry) : ℚ :=
  if e.renderTime ≠ 0 then e.renderTime
  else if e.loadTime ≠ 0 then e.loadTime else 0

/-- The LCP observer over the session: the last entry wins; no entry,
no update. -/
def lcpRun (entries : List LCPEntry) : Option ℚ :=
  entries.getLast?.map lcpValueOf

/-- The FID observer: the first qualifying entry's
`processingStart - startTime`; no entry, no update. -/
def fidRun (entries : List FirstInputEntry) : Option ℚ :=
  entries.head?.map (fun e => e.processingStart - e.startTime)

theorem clsRun_acc (entries : List LayoutShiftEntry) :
    ∀ c : ℚ, ∀ o : Option ℚ,
      (entries.foldl clsStep (c, o)).1 =
        c + (((entries.filter (fun e => !e.hadRecentInput)).map
          (fun e => e.value)).sum) := by
  induction entries with
  | nil => intro c o; simp
  | cons e rest ih =>
      intro c o
      by_cases h : e.hadRecentInput
      · rw [List.foldl_cons, show clsStep (c, o) e = (c, o) from if_pos h]
        simp [ih, h]
      · rw [List.foldl_cons,
            show clsStep (c, o) e = (c + e.value, some (c + e.value)) from
              if_neg h]
        simp [ih, h]
        ring

/-- C6: the CLS accumulator equals the sum of `value` over all entries
observed so far whose `hadRecentInput` is false (flagged entries
excluded), and the exposed `cls` field carries that sum once a
qualifying entry has arrived; on the entry sequence
[{0.05, false}, {0.2, true}, {0.03, false}] the final cls is 0.08. -/
theorem cls_sum_excluding_recent_input :
    (∀ entries : List LayoutShiftEntry,
        (clsRun entries).1 =
          ((entries.filter (fun e => !e.hadRecentInput)).map
            (fun e => e.value)).sum) ∧
    clsRun [⟨5/100, false⟩, ⟨2/10, true⟩, ⟨3/100, false⟩] =
      (8/100, some (8/100)) := by
  constructor
  · intro entries
    have := clsRun_acc entries 0 none
    simpa [clsRun] using this
  · simp only [clsRun, List.foldl_cons, List.foldl_nil, clsStep]
    norm_num

theorem inpRun_acc (entries : List EventEntry) :
    ∀ (w : ℚ) (o : Option ℚ), 0 ≤ w →
      (o = some w ∨ (w = 0 ∧ o = none)) →
      (∀ e ∈ entries, 0 ≤ e.duration) →
      (entries.foldl inpStep (w, o)).1 =
        entries.foldl (fun a e => max a e.duration) w ∧
      ((entries.foldl inpStep (w, o)).2 =
          some (entries.foldl inpStep (w, o)).1 ∨
        ((entries.foldl inpStep (w, o)).1 = 0 ∧
          (entries.foldl inpStep (w, o)).2 = none)) := by
  induction entries with
  | nil =>
      intro w o hw ho _
      rcases ho with h | ⟨h1, h2⟩
      · exact ⟨rfl, Or.inl h⟩
      · exact ⟨rfl, Or.inr ⟨h1, h2⟩⟩
  | cons e rest ih =>
      intro w o hw ho hd
      have hde : 0 ≤ e.duration := hd e (List.mem_cons_self e rest)
      have hrest : ∀ u ∈ rest, 0 ≤ u.duration :=
        fun u hu => hd u (List.mem_cons_of_mem e hu)
      by_cases hgt : e.duration ≠ 0 ∧ w < e.duration
      · have hstep : inpStep (w, o) e = (e.duration, some e.duration) :=
          if_pos hgt
        have hmax : max w e.duration = e.duration := max_eq_right hgt.2.le
        rw [List.foldl_cons, List.foldl_cons, hstep, hmax]
        exact ih e.duration (some e.duration) hde (Or.inl rfl) hrest
      · have hstep : inpStep (w, o) e = (w, o) := if_neg hgt
        have hle : e.duration ≤ w := by
          rcases not_and_or.mp hgt with h | h
          · have h0 : e.duration = 0 := not_not.mp h
            rw [h0]; exact hw
          · exact not_lt.mp h
        have hmax : max w e.duration = w := max_eq_left hle
        rw [List.foldl_cons, List.foldl_cons, hstep, hmax]
        exact ih w o hw ho hrest

/-- C7: the INP accumulator is the running maximum of all nonnegative
interaction durations observed so far (from 0), and the exposed `inp`
field carries that maximum once any positive duration has arrived
(worst case, not latest or average); for the durations
[120, 340, 90, 500, 200] the final inp is 500. -/
theorem inp_worst_interaction :
    (∀ entries : List EventEntry, (∀ e ∈ entries, 0 ≤ e.duration) →
        (inpRun entries).1 =
          entries.foldl (fun a e => max a e.duration) 0 ∧
        ((inpRun entries).2 = some (inpRun entries).1 ∨
          ((inpRun entries).1 = 0 ∧ (inpRun entries).2 = none))) ∧
    inpRun [⟨120⟩, ⟨340⟩, ⟨90⟩, ⟨500⟩, ⟨200⟩] = (500, some 500) := by
  constructor
  · intro entries hd
    exact inpRun_acc entries 0 none le_rfl (Or.inr ⟨rfl, rfl⟩) hd
  · simp only [inpRun, List.foldl_cons, List.foldl_nil, inpStep]
    norm_num

/-- Witness: the general INP reduction applied to the concrete
duration stream [120, 340, 90]. -/
theorem inp_worst_interaction_witness :
    (inpRun [⟨120⟩, ⟨340⟩, ⟨90⟩]).1 =
      ([⟨120⟩, ⟨340⟩, ⟨90⟩] : List EventEntry).foldl
        (fun a e => max a e.duration) 0 ∧
    ((inpRun [⟨120⟩, ⟨340⟩, ⟨90⟩]).2 =
        some (inpRun [⟨120⟩, ⟨340⟩, ⟨90⟩]).1 ∨
      ((inpRun [⟨120⟩, ⟨340⟩, ⟨90⟩]).1 = 0 ∧
        (inpRun [⟨120⟩, ⟨340⟩, ⟨90⟩]).2 = none)) :=
  inp_worst_interaction.1 [⟨120⟩, ⟨340⟩, ⟨90⟩]
    (by intro e he; fin_cases he <;> norm_num)

/-- Which entry-type subscriptions the host platform supports. -/
structure VitalsSupport where
  lcp : Bool
  cls : Bool
  fid : Bool
  inp : Bool
deriving DecidableEq, Repr

/-- The session's entry streams, one per observer. -/
structure VitalsStreams where
  lcpEntries : List LCPEntry
  clsEntries : List LayoutShiftEntry
  fidEntries : List FirstInputEntry
  inpEntries : List EventEntry
deriving DecidableEq, Repr

/-- `observer.observe({type, buffered: true})`: succeeds when the host
supports the entry type, otherwise throws (an `Except.error`). -/
def observeEntryType (supported : Bool) : Except String Unit :=
  if supported then Except.ok () else Except.error "unsupported entry type"

/-- The hook's `try { observer.observe(...) } catch { console.warn }`:
the throw is caught at the point of use; returns whether the stream is
attached, and never propagates the error. -/
def tryObserve (supported : Bool) : Bool :=
  match observeEntryType supported with
  | Except.ok _ => true
  | Except.error _ => false

/-- The hook's final state for a session: each observer receives its
stream only if its `observe` call was attached; a stream whose
attachment threw leaves its field `null` for the whole session. -/
def useWebVitalsRun (sup : VitalsSupport) (ev : VitalsStreams) : WebVitals :=
  { lcp := if tryObserve sup.lcp then lcpRun ev.lcpEntries else none,
    fid := if tryObserve sup.fid then fidRun ev.fidEntries else none,
    cls := if tryObserve sup.cls then (clsRun ev.clsEntries).2 else none,
    inp := if tryObserve sup.inp then (inpRun ev.inpEntries).2 else none }

/-- All four subscriptions supported. -/
def allSupported : VitalsSupport :=
  { lcp := true, cls := true, fid := true, inp := true }

/-- C8: an unsupported entry type makes `observe` throw, the throw is
caught inside the component (attachment merely fails), each failed
stream's field is `null` for the whole session, and every stream that
did attach produces exactly the value it would produce with no failures
at all — failures never cross stream boundaries. -/
theorem vitals_partial_failure :
    (∀ b : Bool,
        (b = false →
          observeEntryType b = Except.error "unsupported entry type") ∧
        tryObserve b = b) ∧
    (∀ (sup : VitalsSupport) (ev : VitalsStreams),
        (sup.lcp = false → (useWebVitalsRun sup ev).lcp = none) ∧
        (sup.fid = false → (useWebVitalsRun sup ev).fid = none) ∧
        (sup.cls = false → (useWebVitalsRun sup ev).cls = none) ∧
        (sup.inp = false → (useWebVitalsRun sup ev).inp = none) ∧
        (sup.lcp = true → (useWebVitalsRun sup ev).lcp =
          (useWebVitalsRun allSupported ev).lcp) ∧
        (sup.fid = true → (useWebVitalsRun sup ev).fid =
          (useWebVitalsRun allSupported ev).fid) ∧
        (sup.cls = true → (useWebVitalsRun sup ev).cls =
          (useWebVitalsRun allSupported ev).cls) ∧
        (sup.inp = true → (useWebVitalsRun sup ev).inp =
          (useWebVitalsRun allSupported ev).inp)) := by
  constructor
  · intro b
    cases b
    · exact ⟨fun h => rfl, rfl⟩
    · exact ⟨fun h => Bool.noConfusion h, rfl⟩
  · intro sup ev
    refine ⟨fun h => ?_, fun h => ?_, fun h => ?_, fun h => ?_,
      fun h => ?_, fun h => ?_, fun h => ?_, fun h => ?_⟩ <;>
      simp [useWebVitalsRun, tryObserve, observeEntryType, allSupported, h]

/-- Witness: a platform supporting only CLS and INP, on concrete entry
streams; the LCP and FID fields stay null, CLS and INP match the
fully-supported run. -/
theorem vitals_partial_failure_witness :
    ((false = false →
        observeEntryType false = Except.error "unsupported entry type") ∧
      tryObserve false = false) ∧
    (({ lcp := false, cls := true, fid := false, inp := true } :
        VitalsSupport).lcp = false →
      (useWebVitalsRun { lcp := false, cls := true, fid := false, inp := true }
        { lcpEntries := [⟨100, 0⟩], clsEntries := [⟨5/100, false⟩],
          fidEntries := [⟨10, 25⟩], inpEntries := [⟨120⟩] }).lcp = none) ∧
    (({ lcp := false, cls := true, fid := false, inp := true } :
        VitalsSupport).cls = true →
      (useWebVitalsRun { lcp := false, cls := true, fid := false, inp := true }
        { lcpEntries := [⟨100, 0⟩], clsEntries := [⟨5/100, false⟩],
          fidEntries := [⟨10, 25⟩], inpEntries := [⟨120⟩] }).cls =
      (useWebVitalsRun allSupported
        { lcpEntries := [⟨100, 0⟩], clsEntries := [⟨5/100, false⟩],
          fidEntries := [⟨10, 25⟩], inpEntries := [⟨120⟩] }).cls) :=
  ⟨(vitals_partial_failure.1 false),
   ((vitals_partial_failure.2
      { lcp := false, cls := true, fid := false, inp := true }
      { lcpEntries := [⟨100, 0⟩], clsEntries := [⟨5/100, false⟩],
        fidEntries := [⟨10, 25⟩], inpEntries := [⟨120⟩] }).1),
   ((vitals_partial_failure.2
      { lcp := false, cls := true, fid := false, inp := true }
      { lcpEntries := [⟨100, 0⟩], clsEntries := [⟨5/100, false⟩],
        fidEntries := [⟨10, 25⟩], inpEntries := [⟨120⟩] }).2.2.2.2.2.2.1)⟩

/-! ## Collector lifecycles and stop handles

Each hook's `useEffect` cleanup: `cancelAnimationFrame` (useFps),
`clearInterval` (useMemory), four `disconnect()`s (useWebVitals),
`window.fetch = originalFetch` (useNetworkMonitor).  Cancelling an
already-cancelled handle, clearing a cleared interval, disconnecting a
disconnected observer and re-assigning the same function are all
no-ops, and a cancelled source never invokes its callback again. -/

/-- The FPS sampler's runtime: whether an animation frame is still
scheduled, plus the loop state. -/
structure FpsCollector where
  scheduled : Bool
  st : FpsState
deriving DecidableEq, Repr

/-- `cancelAnimationFrame(animationFrameId)`. -/
def fpsStopC (c : FpsCollector) : FpsCollector := { c with scheduled := false }

/-- A frame callback fires only while a frame is scheduled. -/
def fpsFrame (c : FpsCollector) (now : ℚ) : FpsCollector × Option ℤ :=
  if c.scheduled then
    let r := fpsLoop c.st now
    ({ c with st := r.1 }, r.2)
  else (c, none)

/-- The heap sampler's runtime: whether the interval is still set, plus
the exposed state. -/
structure MemCollector where
  intervalActive : Bool
  memory : Option HeapSample
deriving DecidableEq, Repr

/-- `clearInterval(interval)`. -/
def memStopC (c : MemCollector) : MemCollector :=
  { c with intervalActive := false }

/-- An interval tick fires only while the interval is set. -/
def memTick (cap : Option HeapInfo) (c : MemCollector) :
    MemCollector × List (Option HeapSample) :=
  if c.intervalActive then
    ({ c with memory := memTickState cap c.memory }, memTickEmits cap)
  else (c, [])

/-- The vitals observer's runtime: one connected flag per observer plus
the closure accumulators and exposed state. -/
structure VitalsCollector where
  lcpConnected : Bool
  clsConnected : Bool
  fidConnected : Bool
  inpConnected : Bool
  clsValue : ℚ
  worstInp : ℚ
  vitals : WebVitals
deriving DecidableEq, Repr

/-- The cleanup: disconnect all four observers. -/
def vitalsStopC (c : VitalsCollector) : VitalsCollector :=
  { c with lcpConnected := false, clsConnected := false,
           fidConnected := false, inpConnected := false }

/-- The `setVitals` emissions of the CLS callback on a batch, given the
closure's current `clsValue`. -/
def clsEmissions (c0 : ℚ) : List LayoutShiftEntry → List ℚ
  | [] => []
  | e :: rest =>
      if e.hadRecentInput then clsEmissions c0 rest
      else (c0 + e.value) :: clsEmissions (c0 + e.value) rest

/-- The `setVitals` emissions of the INP callback on a batch, given the
closure's current `worstInp`. -/
def inpEmissions (w0 : ℚ) : List EventEntry → List ℚ
  | [] => []
  | e :: rest =>
      if e.duration ≠ 0 ∧ w0 < e.duration then
        e.duration :: inpEmissions e.duration rest
      else inpEmissions w0 rest

/-- Delivery of an LCP batch: fires only while connected; takes the
last entry of the batch. -/
def vitalsDeliverLcp (batch : List LCPEntry) (c : VitalsCollector) :
    VitalsCollector × List ℚ :=
  if c.lcpConnected then
    match batch.getLast? with
    | some e =>
        ({ c with vitals := { c.vitals with lcp := some (lcpValueOf e) } },
         [lcpValueOf e])
    | none => (c, [])
  else (c, [])

/-- Delivery of a layout-shift batch: fires only while connected. -/
def vitalsDeliverCls (batch : List LayoutShiftEntry) (c : VitalsCollector) :
    VitalsCollector × List ℚ :=
  if c.clsConnected then
    let r := batch.foldl clsStep (c.clsValue, c.vitals.cls)
    ({ c with clsValue := r.1, vitals := { c.vitals with cls := r.2 } },
     clsEmissions c.clsValue batch)
  else (c, [])

/-- Delivery of a first-input batch: fires only while connected; takes
the first entry. -/
def vitalsDeliverFid (batch : List FirstInputEntry) (c : VitalsCollector) :
    VitalsCollector × List ℚ :=
  if c.fidConnected then
    match batch.head? with
    | some e =>
        ({ c with vitals :=
            { c.vitals with fid := some (e.processingStart - e.startTime) } },
         [e.processingStart - e.startTime])
    | none => (c, [])
  else (c, [])

/-- Delivery of an event (interaction) batch: fires only while
connected. -/
def vitalsDeliverInp (batch : List EventEntry) (c : VitalsCollector) :
    VitalsCollector × List ℚ :=
  if c.inpConnected then
    let r := batch.foldl inpStep (c.worstInp, c.vitals.inp)
    ({ c with worstInp := r.1, vitals := { c.vitals with inp := r.2 } },
     inpEmissions c.worstInp batch)
  else (c, [])

/-- For the three callback-source collectors, invoking the stop handle
again on an already-stopped collector (in any state, including one that
never emitted) changes nothing and raises no error, and once stopped no
frame, tick or observer delivery produces any further update; for the
interceptor, restoring the captured original a second time changes
nothing. -/
theorem stop_idempotent_no_further_updates :
    (∀ (c : FpsCollector) (now : ℚ),
        fpsStopC (fpsStopC c) = fpsStopC c ∧
        fpsFrame (fpsStopC c) now = (fpsStopC c, none)) ∧
    (∀ (c : MemCollector) (cap : Option HeapInfo),
        memStopC (memStopC c) = memStopC c ∧
        memTick cap (memStopC c) = (memStopC c, [])) ∧
    (∀ (c : VitalsCollector) (lb : List LCPEntry)
        (cb : List LayoutShiftEntry) (fb : List FirstInputEntry)
        (ib : List EventEntry),
        vitalsStopC (vitalsStopC c) = vitalsStopC c ∧
        vitalsDeliverLcp lb (vitalsStopC c) = (vitalsStopC c, []) ∧
        vitalsDeliverCls cb (vitalsStopC c) = (vitalsStopC c, []) ∧
        vitalsDeliverFid fb (vitalsStopC c) = (vitalsStopC c, []) ∧
        vitalsDeliverInp ib (vitalsStopC c) = (vitalsStopC c, [])) ∧
    (∀ (orig : FetchFn) (env : MonitorEnv),
        nmStop orig (nmStop orig env) = nmStop orig env) := by
  refine ⟨fun c now => ⟨rfl, rfl⟩,
    fun c cap => ⟨rfl, rfl⟩,
    fun c lb cb fb ib => ⟨rfl, rfl, rfl, rfl, rfl⟩,
    fun orig env => rfl⟩

/-- Settlement of one outbound call, parameterized by the value the
global slot held when the call was made.  A call made through the
installed wrapper runs the wrapper's async body (useNetworkMonitor.ts
lines 30–62): that closure checks no liveness flag, so on settlement it
invokes `setRequests` unconditionally — even if the cleanup has since
restored the slot, since re-assigning `window.fetch` cannot cancel a
wrapper invocation already underway.  A call made through a non-wrapper
slot value is not intercepted and performs no `setRequests` invocation.
Returns the updated history, the outcome surfaced to the caller, and
the number of `setRequests` (onUpdate) invocations performed. -/
def settleCall (slotAtCall : FetchFn) (url : String)
    (startTime settleTime : ℚ) (ts : ℤ) (outcome : FetchOutcome)
    (hist : List NetworkRequest) :
    (List NetworkRequest × FetchOutcome) × ℕ :=
  match slotAtCall with
  | FetchFn.wrapper _ =>
      (interceptCall url startTime settleTime ts outcome hist, 1)
  | FetchFn.base _ => ((hist, outcome), 0)

/-- C9: the claim holds for the FrameRateSampler, HeapSampler and
VitalsObserver, but the code violates its "no further onUpdate after
stop" conclusion for the CallInterceptor.  Concrete failing run:
from the slot `base 0`, `start()` installs the wrapper; a caller then
invokes the slot (call in flight); `stop()` restores the slot to
`base 0` (the stop has taken effect); yet when the in-flight call
settles (url "u", status 200, elapsed 10 ms) the flag-less wrapper
closure still performs one `setRequests` invocation, appending a
record — while a fresh call made through the restored slot performs
none. -/
theorem nm_inflight_update_after_stop :
    (nmStop (nmStart { globalFetch := FetchFn.base 0, requests := [] }).2
        (nmStart { globalFetch := FetchFn.base 0,
                   requests := [] }).1).globalFetch = FetchFn.base 0 ∧
    (settleCall
        (nmStart { globalFetch := FetchFn.base 0,
                   requests := [] }).1.globalFetch
        "u" 0 10 5 (FetchOutcome.success 200 1) []).2 = 1 ∧
    (settleCall
        (nmStart { globalFetch := FetchFn.base 0,
                   requests := [] }).1.globalFetch
        "u" 0 10 5 (FetchOutcome.success 200 1) []).1.1 =
      [{ url := "u", status := 200, duration := roundTo2 (10 - 0),
         timestamp := 5 }] ∧
    (settleCall (FetchFn.base 0) "u" 20 30 6
        (FetchOutcome.success 200 2) []).2 = 0 :=
  ⟨rfl, rfl, rfl, rfl⟩

end PerfDash
